import Mathlib

/-!
# Verification of the rss-service core (feed registry, item ledger, rate limiter, renderer)

Shallow embedding of the TypeScript sources of the `rss-service` package:
* storage layer (`storage.ts`, shipped concatenated inside `src/rss-service/Dockerfile`):
  `createFeed`, `addItem` and the Redis primitives they use;
* route layer (`src/rss-service/src/routes.ts`): `handleAddItem`'s item construction and
  the `rateLimiter` middleware;
* formatting layer (`src/unnamed/part_004`, i.e. `formatters.ts`): `formatItems`,
  `generateFeed`;
* utilities (`src/rss-service/src/utils.ts`): `stripHtml`, `sanitize`.

The remote key-value store (Redis) is modelled after the in-repository mock
(`mock/redis.js`, also inside the Dockerfile bundle), which the spec declares
observably equivalent to the networked store.  Timestamps (`new Date()`) are modelled
as explicit clock parameters of type `Nat`/`Int` (milliseconds since epoch).
-/

/-! ## Redis primitives (modelled after `mock/redis.js` / real Redis semantics)

Lists are `List α` (index 0 = head, matching LPUSH/LRANGE).  Sets are duplicate-free
`List String` maintained by `redisSadd`. -/

/-- `LRANGE key start stop` on a list: elements from index `start` through `stop`
inclusive; a negative `stop` means "through the end of the list"
(the mock: `slice(start, end === -1 ? undefined : end + 1)`). -/
def redisLrange (l : List α) (start : Nat) (stop : Int) : List α :=
  if stop < 0 then l.drop start else (l.take (stop.toNat + 1)).drop start

/-- `LTRIM key start stop`: keep only the elements `LRANGE` would return. -/
def redisLtrim (l : List α) (start : Nat) (stop : Int) : List α :=
  if stop < 0 then l.drop start else (l.take (stop.toNat + 1)).drop start

/-- `SADD key member`: add a member to a set (no-op when already present). -/
def redisSadd (s : List String) (m : String) : List String :=
  if s.contains m then s else s ++ [m]

/-- `SREM key member`: remove a member from a set. -/
def redisSrem (s : List String) (m : String) : List String :=
  s.erase m

/-- `SISMEMBER key member`. -/
def redisSismember (s : List String) (m : String) : Bool :=
  s.contains m

/-! ## Data model -/

/-- Feed configuration (`FeedConfig` in `types.ts`).  We carry the fields the verified
operations read: `id`, the descriptive fields and `maxItems`; `language`, `copyright`,
`image`, `favicon`, `author` are omitted because no verified operation branches on them. -/
structure FeedConfig where
  id : String
  title : String := ""
  description : String := ""
  siteUrl : String := ""
  maxItems : Nat := 100
  deriving DecidableEq, Repr

/-- The value stored at key `feed:{id}`: the configuration plus a creation timestamp
(`createdAt: new Date().toISOString()` in `createFeed`). -/
structure FeedRecord where
  feedConfig : FeedConfig
  createdAt : Nat
  deriving DecidableEq, Repr

/-- A stored RSS item as constructed by `handleAddItem` / parsed by the formatters.
String-valued fields are `Option String` (`none` = JS property absent); date fields are
millisecond timestamps.  Media/author/category fields are omitted: no verified
operation branches on them. -/
structure ItemRec where
  id : Option String := none
  guid : Option String := none
  title : Option String := none
  description : Option String := none
  content : Option String := none
  link : Option String := none
  date : Option Nat := none
  published : Option Nat := none
  deriving DecidableEq, Repr

/-- One entry of the per-feed item list.  `addItem` stores `JSON.stringify(item)`;
since that serialization round-trips, a stored string is represented either as the
record it parses back to (`ok`) or as an unparseable blob (`malformed`), which is what
`JSON.parse` distinguishes in the formatters and in the trim-cleanup loop. -/
inductive StoredRecord where
  | ok (item : ItemRec)
  | malformed (raw : String)
  deriving DecidableEq, Repr

/-- Error taxonomy (`errors.ts`).  `configurationError` is `FeedConfigurationError`,
`storageError` is `StorageError`, etc. -/
inductive RssError where
  | feedNotFound
  | duplicateItem
  | storageError
  | configurationError
  deriving DecidableEq, Repr

/-- The per-feed slice of the backing store: the value at `feed:{id}` (none = key
absent, which is what `feedExists` checks), the list at `feed:{id}:items` and the set
at `feed:{id}:guids`. -/
structure FeedState where
  config : Option FeedConfig
  items : List StoredRecord
  guids : List String
  deriving DecidableEq, Repr

/-! ## Storage operations (`storage.ts`) -/

/-- The duplicate test of `addItem`:
`item.guid && (await itemExists(feedId, item.guid))`. -/
def guidIsDuplicate (st : FeedState) (it : ItemRec) : Bool :=
  match it.guid with
  | some g => redisSismember st.guids g
  | none => false

/-- The GUID-index cleanup pass of `addItem`: for each removed item that parses and
has a guid, `SREM` that guid. -/
def guidCleanup (guids : List String) (removed : List StoredRecord) : List String :=
  removed.foldl
    (fun gs r =>
      match r with
      | .ok rit =>
        match rit.guid with
        | some g => redisSrem gs g
        | none => gs
      | .malformed _ => gs)
    guids

/-- `addItem(feedId, item)` from `storage.ts` (Dockerfile bundle, lines 312-368):
feed-existence check, duplicate-GUID check, `LPUSH` of the serialized item, `SADD` of
its guid, `LTRIM` to `maxItems`, then — only when `LLEN` (taken after the trim) still
exceeds `maxItems` — removal of the guids of the items beyond the bound. -/
def addItem (st : FeedState) (it : ItemRec) : Except RssError FeedState :=
  match st.config with
  | none => .error .feedNotFound
  | some cfg =>
    if guidIsDuplicate st it then .error .duplicateItem
    else
      let items1 := StoredRecord.ok it :: st.items
      let guids1 :=
        match it.guid with
        | some g => redisSadd st.guids g
        | none => st.guids
      let items2 := redisLtrim items1 0 ((cfg.maxItems : Int) - 1)
      let currentItemCount := items2.length
      let guids2 :=
        if currentItemCount > cfg.maxItems then
          guidCleanup guids1 (redisLrange items2 cfg.maxItems (-1))
        else guids1
      .ok { st with items := items2, guids := guids2 }

/-- The state after an `addItem` call: the new state on success, the old state when
the call threw (the storage layer mutates nothing before its checks fail). -/
def applyAdd (st : FeedState) (it : ItemRec) : FeedState :=
  match addItem st it with
  | .ok st' => st'
  | .error _ => st

/-- Fold a whole sequence of `addItem` calls, keeping the previous state whenever a
call fails. -/
def applyAdds (st : FeedState) (its : List ItemRec) : FeedState :=
  its.foldl applyAdd st

/-! ## Feed registry (`createFeed`, `storage.ts` lines 155-177) -/

/-- The whole registry keyspace: the `feed:{id}` records, as an association list. -/
structure Registry where
  feeds : List (String × FeedRecord)
  deriving DecidableEq, Repr

/-- Redis `SET key value`: replace the value when the key exists, insert otherwise. -/
def setKey (m : List (String × FeedRecord)) (k : String) (v : FeedRecord) :
    List (String × FeedRecord) :=
  match m with
  | [] => [(k, v)]
  | (k', v') :: rest => if k' = k then (k, v) :: rest else (k', v') :: setKey rest k v

/-- Redis `GET key` on the registry keyspace. -/
def getKey (m : List (String × FeedRecord)) (k : String) : Option FeedRecord :=
  match m with
  | [] => none
  | (k', v') :: rest => if k' = k then some v' else getKey rest k

/-- `createFeed(config)` from `storage.ts`: `if (!config.id) throw new StorageError(...)`
(the empty string is falsy in JS), then unconditionally `SET feed:{id}` to the
configuration paired with a creation timestamp — no prior-existence check, so an
existing record is overwritten. -/
def createFeed (config : FeedConfig) (reg : Registry) (now : Nat) :
    Except RssError (String × Registry) :=
  if config.id = "" then .error .storageError
  else .ok (config.id, ⟨setKey reg.feeds config.id ⟨config, now⟩⟩)

/-- `GET` after `SET` at the same key returns the value just written. -/
theorem getKey_setKey (m : List (String × FeedRecord)) (k : String) (v : FeedRecord) :
    getKey (setKey m k v) k = some v := by
  induction m with
  | nil => simp [setKey, getKey]
  | cons hd tl ih =>
    obtain ⟨k', v'⟩ := hd
    by_cases h : k' = k
    · simp [setKey, getKey, h]
    · simp [setKey, getKey, h, ih]

/-! ## Claim C1: the ledger length bound -/

/-- C1.  For every feed (with its configured positive `maxItems`) and every successful
`addItem` call — hence after each successful call of any sequence of them — the stored
item list has length at most `maxItems`: `addItem` prepends the item and then trims
the list to the first `maxItems` entries. -/
theorem addItem_length_bound (st : FeedState) (it : ItemRec) (cfg : FeedConfig)
    (st' : FeedState) (hc : st.config = some cfg) (hm : 1 ≤ cfg.maxItems)
    (h : addItem st it = Except.ok st') :
    st'.items.length ≤ cfg.maxItems := by
  unfold addItem at h
  rw [hc] at h
  by_cases hdup : guidIsDuplicate st it
  · simp [hdup] at h
  · simp only [hdup, if_false, Bool.false_eq_true] at h
    have hstop : ¬ ((cfg.maxItems : Int) - 1 < 0) := by omega
    have hitems : st'.items =
        (StoredRecord.ok it :: st.items).take (((cfg.maxItems : Int) - 1).toNat + 1) := by
      cases h
      simp [redisLtrim, hstop]
    have hnat : ((cfg.maxItems : Int) - 1).toNat + 1 = cfg.maxItems := by omega
    rw [hitems, hnat]
    exact List.length_take_le _ _

/-- Witness for C1: a concrete feed with `maxItems = 1` and a concrete successful call. -/
theorem addItem_length_bound_witness :
    (addItem ⟨some ⟨"f", "t", "d", "https://x", 1⟩, [.ok ⟨none, some "g0", none, none,
        none, some "l0", none, none⟩], ["g0"]⟩
      ⟨none, some "g1", none, none, none, some "l1", none, none⟩).isOk = true ∧
    ∀ st', addItem ⟨some ⟨"f", "t", "d", "https://x", 1⟩, [.ok ⟨none, some "g0", none,
        none, none, some "l0", none, none⟩], ["g0"]⟩
      ⟨none, some "g1", none, none, none, some "l1", none, none⟩ = Except.ok st' →
      st'.items.length ≤ 1 := by
  refine ⟨by decide, fun st' h => ?_⟩
  exact addItem_length_bound _ _ ⟨"f", "t", "d", "https://x", 1⟩ st' rfl (by decide) h

/-! ## Claim C3: duplicate rejection without mutation -/

/-- C3.  For every feed and every item whose guid is already in the GUID index,
`addItem` fails with `DuplicateItem`, and the feed state (item list and GUID index)
is unchanged: the duplicate check precedes every write. -/
theorem addItem_duplicate_rejected (st : FeedState) (it : ItemRec) (g : String)
    (hfeed : st.config.isSome = true) (hg : it.guid = some g)
    (hmem : redisSismember st.guids g = true) :
    addItem st it = Except.error RssError.duplicateItem ∧ applyAdd st it = st := by
  obtain ⟨cfg, hc⟩ := Option.isSome_iff_exists.mp hfeed
  have hdup : guidIsDuplicate st it = true := by
    unfold guidIsDuplicate
    rw [hg]
    exact hmem
  have h1 : addItem st it = Except.error RssError.duplicateItem := by
    unfold addItem
    rw [hc]
    simp [hdup]
  exact ⟨h1, by unfold applyAdd; rw [h1]⟩

/-- Witness for C3: a concrete duplicate insertion is rejected and leaves the state
untouched. -/
theorem addItem_duplicate_rejected_witness :
    addItem ⟨some ⟨"f", "t", "d", "https://x", 100⟩, [.ok ⟨none, some "g1", none, none,
        none, some "l1", none, none⟩], ["g1"]⟩
      ⟨none, some "g1", none, none, none, some "l2", none, none⟩ =
      Except.error RssError.duplicateItem ∧
    applyAdd ⟨some ⟨"f", "t", "d", "https://x", 100⟩, [.ok ⟨none, some "g1", none, none,
        none, some "l1", none, none⟩], ["g1"]⟩
      ⟨none, some "g1", none, none, none, some "l2", none, none⟩ =
      ⟨some ⟨"f", "t", "d", "https://x", 100⟩, [.ok ⟨none, some "g1", none, none,
        none, some "l1", none, none⟩], ["g1"]⟩ :=
  addItem_duplicate_rejected _ _ "g1" (by decide) rfl (by decide)

/-! ## Claim C2: the `maxItems = 2` trim scenario -/

/-- The feed of the C2 scenario: `maxItems = 2`. -/
def c2Feed : FeedState :=
  ⟨some ⟨"f", "t", "d", "https://x", 2⟩, [], []⟩

/-- Scenario item A. -/
def c2ItemA : ItemRec :=
  ⟨none, some "gA", none, none, none, some "https://x/a", none, none⟩

/-- Scenario item B. -/
def c2ItemB : ItemRec :=
  ⟨none, some "gB", none, none, none, some "https://x/b", none, none⟩

/-- Scenario item C. -/
def c2ItemC : ItemRec :=
  ⟨none, some "gC", none, none, none, some "https://x/c", none, none⟩

/-- The state after adding A, B, C in order. -/
def c2Run : FeedState :=
  applyAdds c2Feed [c2ItemA, c2ItemB, c2ItemC]

/-- Counterexample to C2 as stated.  After the three successful `addItem` calls the
ledger is `[C, B]`, but the guid of the evicted item A is STILL a member of the GUID
index: `addItem` measures `LLEN` only after the `LTRIM`, so the length never exceeds
`maxItems` at that point and the index-cleanup loop never runs. -/
theorem c2_guid_of_A_remains :
    c2Run.items = [.ok c2ItemC, .ok c2ItemB] ∧
    redisSismember c2Run.guids "gA" = true := by decide

/-- C2 amended.  Feed with `maxItems = 2`; adding three items with distinct guids in
order A, B, C leaves the ledger as `[C, B]`, and the GUID index as `{gA, gB, gC}`:
trimming does NOT erase the guid of the evicted item, because the cleanup branch
compares the post-trim list length with `maxItems` and therefore never fires. -/
theorem c2_trim_scenario :
    c2Run.items = [.ok c2ItemC, .ok c2ItemB] ∧
    c2Run.guids = ["gA", "gB", "gC"] := by decide

/-! ## Rate limiter (`middleware/rate-limit.ts`, routes.ts bundle lines 783-899)

The middleware state is the process-local `memCache` entry for one client key plus the
remote Redis counter for that key.  `new Date()` / `Date.now()` is the explicit `now`
parameter (milliseconds).  The outcome of one request is a `Decision`:
`admitted` models `await next()` returning normally (including the fail-open catch),
`rejected` models the `HTTPException(429)` (`RateLimitExceeded`) escaping to the
caller — the only exception the catch block re-throws. -/

/-- `RATE_LIMIT.windowMs` = 5 minutes, in milliseconds. -/
def rlWindowMs : Int := 5 * 60 * 1000

/-- `RATE_LIMIT.max` = 100 requests per window. -/
def rlMax : Nat := 100

/-- One `memCache` entry: `{ count, expires }` (absolute expiry timestamp). -/
structure MemEntry where
  count : Nat
  expires : Int
  deriving DecidableEq, Repr

/-- The remote counter key: its value and its absolute expiry (none = no TTL set). -/
structure RemoteEntry where
  count : Nat
  expiresAt : Option Int
  deriving DecidableEq, Repr

/-- How the remote store behaves during the pipelined `incr`+`ttl` call:
it executes normally (`ok`), the call throws (`throwErr`), or it returns an
invalid result array (`invalid`, the `!results || results.length < 2` branch). -/
inductive RemoteBehavior where
  | ok
  | throwErr
  | invalid
  deriving DecidableEq, Repr

/-- Outcome of the middleware for one request. -/
inductive Decision where
  | admitted
  | rejected
  deriving DecidableEq, Repr

/-- Combined per-client rate-limit state: local mirror entry and remote counter key. -/
structure RLState where
  cache : Option MemEntry
  remote : Option RemoteEntry
  deriving DecidableEq, Repr

/-- The remote key as visible at time `now`: expired keys are gone. -/
def remoteLive (r : Option RemoteEntry) (now : Int) : Option RemoteEntry :=
  match r with
  | none => none
  | some e =>
    match e.expiresAt with
    | some t => if t ≤ now then none else some e
    | none => some e

/-- Redis `INCR`: increment a live key, or create it at 1 with no TTL. -/
def remoteIncr (r : Option RemoteEntry) (now : Int) : RemoteEntry :=
  match remoteLive r now with
  | none => ⟨1, none⟩
  | some e => ⟨e.count + 1, e.expiresAt⟩

/-- Redis `TTL` of an existing key: `-1` when no expiry is set, else the remaining
time in seconds (rounded up). -/
def remoteTtl (e : RemoteEntry) (now : Int) : Int :=
  match e.expiresAt with
  | none => -1
  | some t => (t - now + 999) / 1000

/-- The cache-miss path of the middleware: the pipelined `incr` + `ttl`, the
first-request/no-TTL `expire` call, the `memCache.set` refresh, and the limit check.
On `throwErr` the catch block logs and calls `next()` (fail-open); on `invalid` the
middleware logs and calls `next()`; in both cases nothing is written. -/
def rlMiss (st : RLState) (now : Int) (fault : RemoteBehavior) : Decision × RLState :=
  match fault with
  | .throwErr => (.admitted, st)
  | .invalid => (.admitted, st)
  | .ok =>
    let e1 := remoteIncr st.remote now
    let requests := e1.count
    let ttl0 := remoteTtl e1 now
    let fresh : Bool := requests == 1 || decide (ttl0 < 0)
    let e2 := if fresh then RemoteEntry.mk e1.count (some (now + rlWindowMs)) else e1
    let ttl := if fresh then rlWindowMs / 1000 else ttl0
    let st' : RLState := ⟨some ⟨requests, now + ttl * 1000⟩, some e2⟩
    (if requests > rlMax then Decision.rejected else Decision.admitted, st')

/-- The GET path of `rateLimiter`: consult the local mirror; on a live entry increment
locally (no remote round trip), otherwise fall through to `rlMiss`; the mirror is
updated before the limit comparison, so a rejected request still bumps the mirror. -/
def rlGet (st : RLState) (now : Int) (fault : RemoteBehavior) : Decision × RLState :=
  match st.cache with
  | some c =>
    if c.expires > now then
      let requests := c.count + 1
      let st' : RLState := { st with cache := some ⟨requests, c.expires⟩ }
      (if requests > rlMax then Decision.rejected else Decision.admitted, st')
    else rlMiss st now fault
  | none => rlMiss st now fault

/-- `rateLimiter(c, next)`: non-GET requests bypass rate limiting entirely. -/
def rateLimiter (st : RLState) (now : Int) (fault : RemoteBehavior) (method : String) :
    Decision × RLState :=
  if method = "GET" then rlGet st now fault else (.admitted, st)

/-- The initial per-client state: no mirror entry, no remote key. -/
def rlInit : RLState := ⟨none, none⟩

/-- Run a sequence of GET requests (remote store healthy) at the given times. -/
def runRL (st : RLState) (times : List Int) : List Decision × RLState :=
  match times with
  | [] => ([], st)
  | t :: rest =>
    let s1 := rateLimiter st t .ok "GET"
    let rest' := runRL s1.2 rest
    (s1.1 :: rest'.1, rest'.2)

/-- The local mirror's count (0 when no entry). -/
def localCount (st : RLState) : Nat :=
  match st.cache with
  | some c => c.count
  | none => 0

/-- The authoritative remote counter's value (0 when the key is absent). -/
def remoteCount (st : RLState) : Nat :=
  match st.remote with
  | some e => e.count
  | none => 0

/-- The cache-miss condition of the middleware: no mirror entry, or an expired one. -/
def cacheMiss (st : RLState) (now : Int) : Bool :=
  match st.cache with
  | some c => decide (c.expires ≤ now)
  | none => true

/-! ## Claim C4: fail-open on remote failure -/

/-- C4.  When the remote store's batched increment fails during admission of a read
request — the call throws, or the pipeline returns an invalid result — the request is
still admitted (fail-open) and the state is untouched; no exception escapes: the
outcome is `admitted`, never an error, because the catch block re-throws only the 429
`HTTPException`. -/
theorem rateLimiter_fail_open (st : RLState) (now : Int)
    (h : cacheMiss st now = true) :
    rateLimiter st now .throwErr "GET" = (.admitted, st) ∧
    rateLimiter st now .invalid "GET" = (.admitted, st) := by
  unfold rateLimiter rlGet
  cases hc : st.cache with
  | none => simp [rlMiss]
  | some c =>
    unfold cacheMiss at h
    rw [hc] at h
    have : ¬ (c.expires > now) := by
      simp only [decide_eq_true_eq] at h
      omega
    simp [this, rlMiss]

/-- Witness for C4: a concrete cache-missing state with a failing remote store. -/
theorem rateLimiter_fail_open_witness :
    rateLimiter rlInit 0 .throwErr "GET" = (.admitted, rlInit) ∧
    rateLimiter rlInit 0 .invalid "GET" = (.admitted, rlInit) :=
  rateLimiter_fail_open rlInit 0 (by decide)

/-! ## Claim C5: the 101-request window scenario -/

/-- C5.  From a fresh state, 101 GET requests from one client inside one 5-minute
window: the first 100 are admitted, the 101st is rejected with the 429
`RateLimitExceeded` signal; a further request after the window's TTL has elapsed is
admitted again with both the remote counter and the mirror reset to 1. -/
theorem rateLimiter_window_scenario :
    (runRL rlInit (List.replicate 101 0 ++ [300000])).1 =
      List.replicate 100 .admitted ++ [.rejected, .admitted] ∧
    (runRL rlInit (List.replicate 101 0 ++ [300000])).2.cache = some ⟨1, 600000⟩ ∧
    (runRL rlInit (List.replicate 101 0 ++ [300000])).2.remote = some ⟨1, some 600000⟩ := by
  decide

/-! ## Claim C9: the local mirror versus the remote counter -/

/-- Counterexample to C9.  Three admitted GET requests from one client in one process:
the local mirror holds count 3 while the authoritative remote counter holds 1 — the
mirror differs from the remote counter by 2 at that point, because cache hits
increment only the mirror and never reach the remote store.  This refutes "differs by
at most one request at every point during the window". -/
theorem c9_mirror_runs_ahead :
    localCount (runRL rlInit [0, 0, 0]).2 = 3 ∧
    remoteCount (runRL rlInit [0, 0, 0]).2 = 1 ∧
    localCount (runRL rlInit [0, 0, 0]).2 > remoteCount (runRL rlInit [0, 0, 0]).2 + 1 := by
  decide

/-- The rate-limit step with a healthy remote store never lets the mirror fall behind
the remote counter. -/
theorem rlStep_mirror_ge (st : RLState) (now : Int)
    (h : remoteCount st ≤ localCount st) :
    remoteCount (rateLimiter st now .ok "GET").2 ≤
      localCount (rateLimiter st now .ok "GET").2 := by
  have hmiss : remoteCount (rlMiss st now .ok).2 ≤ localCount (rlMiss st now .ok).2 := by
    unfold rlMiss
    by_cases hfresh : ((remoteIncr st.remote now).count == 1
        || decide (remoteTtl (remoteIncr st.remote now) now < 0)) = true <;>
      simp [hfresh, localCount, remoteCount]
  have hr : rateLimiter st now .ok "GET" = rlGet st now .ok := by
    unfold rateLimiter
    rw [if_pos rfl]
  rw [hr]
  unfold rlGet
  cases hc : st.cache with
  | none => exact hmiss
  | some c =>
    by_cases hl : c.expires > now
    · simp only [if_pos hl]
      cases hrem : st.remote with
      | none => simp [remoteCount, localCount, hc, hrem] at h ⊢
      | some e =>
        simp [remoteCount, localCount, hc, hrem] at h ⊢
        omega
    · simp only [if_neg hl]
      exact hmiss

/-- C9 amended.  In a single serving process, for any sequence of GET requests from
one client identifier (healthy remote store), the process-local mirror never LAGS the
authoritative remote counter; instead it runs ahead of it — by one request per cache
hit, without bound — since cache hits increment only the mirror while the remote
counter advances only on cache misses. -/
theorem local_mirror_never_lags (times : List Int) :
    remoteCount (runRL rlInit times).2 ≤ localCount (runRL rlInit times).2 := by
  suffices h : ∀ (ts : List Int) (st : RLState), remoteCount st ≤ localCount st →
      remoteCount (runRL st ts).2 ≤ localCount (runRL st ts).2 from
    h times rlInit (by decide)
  intro ts
  induction ts with
  | nil => intro st h; simpa [runRL] using h
  | cons t rest ih =>
    intro st h
    simpa [runRL] using ih _ (rlStep_mirror_ge st t h)

/-! ## HTML stripping (`stripHtml` in `utils.ts`)

`stripHtml` parses with the `node-html-parser` collaborator and returns
`root.textContent`.  That collaborator tokenizes with a tag regex and decodes
entities (the `he` package) per text node, so the model is:
* a span starting at `<` is removed only when it is a syntactically complete tag —
  optional `/`, a name (letter then name characters), then either `>`, `/>` or
  whitespace-led attributes (quoted values may hide `>`) up to the closing `>`;
  comments `<!--...-->` are removed; every other `<` (malformed tags such as `<b@>`,
  unterminated tags, stray `<`) stays literal text;
* the raw text between removed spans forms segments (one per text node), and each
  segment is entity-decoded separately: `&lt; &gt; &amp; &quot;` (case-insensitive,
  legacy form without `;` accepted, as `he` does), `&apos;`, and numeric `&#NN;` /
  `&#xHH;` references; unrecognized `&`-sequences stay literal.  In particular
  `&lt;b&gt;` decodes to `<b>`. -/

/-- A single-quote character (apostrophe). -/
def singleQuote : Char := Char.ofNat 39

/-- HTML whitespace (and control characters). -/
def isWs (c : Char) : Bool := c.toNat ≤ 32

/-- Case-insensitive character comparison against a lowercase pattern character. -/
def lowEq (c d : Char) : Bool :=
  c.toLower == d

/-- The characters after the first `>`, when there is one. -/
def afterGt (l : List Char) : Option (List Char) :=
  match l with
  | [] => none
  | c :: rest => if c == '>' then some rest else afterGt rest

/-- Is there a `<` anywhere? -/
def hasLt : List Char → Bool
  | [] => false
  | c :: rest => c == '<' || hasLt rest

/-- `hasLt` distributes over append. -/
theorem hasLt_append (a b : List Char) : hasLt (a ++ b) = (hasLt a || hasLt b) := by
  induction a with
  | nil => simp [hasLt]
  | cons c rest ih => simp [hasLt, ih, Bool.or_assoc]

/-- Characters up to (and consuming) a closing delimiter. -/
def takeUntil (stop : Char) : List Char → (List Char × List Char)
  | [] => ([], [])
  | c :: rest =>
    if c == stop then ([], rest)
    else
      let p := takeUntil stop rest
      (c :: p.1, p.2)

/-- A character of an HTML tag name after its leading letter
(the tag regex's `[-.:0-9_a-zA-Z]`). -/
def isNameChar (c : Char) : Bool :=
  c.isAlphanum || c == '-' || c == '.' || c == ':' || c == '_'

/-- Drop a run of tag-name characters. -/
def skipName : List Char → List Char
  | [] => []
  | c :: rest => if isNameChar c then skipName rest else c :: rest

/-- Scan an attribute area for the closing `>` of a tag, skipping quoted values
(which may contain `>`); `none` when the tag is unterminated. -/
def closeTagSpan : Nat → List Char → Option (List Char)
  | 0, _ => none
  | _ + 1, [] => none
  | fuel + 1, c :: rest =>
    if c == '>' then some rest
    else if c == '"' then closeTagSpan fuel (takeUntil '"' rest).2
    else if c == singleQuote then closeTagSpan fuel (takeUntil singleQuote rest).2
    else closeTagSpan fuel rest

/-- Match one complete tag starting right after a `<`: optional `/`, a letter, name
characters, then `>`, `/>`, or whitespace-led attributes up to the closing `>`.
Returns the remainder after the tag, or `none` when the span is not a well-formed
tag (then the `<` stays literal text, as the collaborator's regex leaves it). -/
def matchTag (fuel : Nat) (l : List Char) : Option (List Char) :=
  let l1 :=
    match l with
    | '/' :: r => r
    | _ => l
  match l1 with
  | [] => none
  | c :: r =>
    if c.isAlpha then
      match skipName r with
      | '>' :: r2 => some r2
      | '/' :: '>' :: r2 => some r2
      | d :: r2 => if isWs d then closeTagSpan fuel (d :: r2) else none
      | [] => none
    else none

/-- Does this position (right after a `<`) start an HTML comment? -/
def isCommentStart (l : List Char) : Bool :=
  match l with
  | '!' :: '-' :: '-' :: _ => true
  | _ => false

/-- The characters after the `<!--` opener. -/
def commentRest (l : List Char) : List Char :=
  match l with
  | '!' :: '-' :: '-' :: r => r
  | _ => []

/-- The characters after the closing `-->`, when there is one. -/
def afterCommentEnd : Nat → List Char → Option (List Char)
  | 0, _ => none
  | _ + 1, [] => none
  | fuel + 1, c :: rest =>
    if c == '-' then
      match rest with
      | '-' :: '>' :: r => some r
      | _ => afterCommentEnd fuel rest
    else afterCommentEnd fuel rest

/-- Add a character to the front of the first (current) text segment. -/
def prependHead (c : Char) : List (List Char) → List (List Char)
  | [] => [[c]]
  | s :: ss => (c :: s) :: ss

/-- Split raw markup into its text segments (one per text node): removed tags and
comments end the current segment; a `<` that matches neither stays literal text
inside the segment. -/
def stripSegs : Nat → List Char → List (List Char)
  | 0, _ => [[]]
  | _ + 1, [] => [[]]
  | fuel + 1, c :: rest =>
    if c == '<' then
      if isCommentStart rest then
        match afterCommentEnd (commentRest rest).length (commentRest rest) with
        | some r2 => [] :: stripSegs fuel r2
        | none => prependHead '<' (stripSegs fuel rest)
      else
        match matchTag rest.length rest with
        | some r2 => [] :: stripSegs fuel r2
        | none => prependHead '<' (stripSegs fuel rest)
    else prependHead c (stripSegs fuel rest)

/-- Consume a pattern (lowercase) case-insensitively; returns the remainder. -/
def afterLitCI : List Char → List Char → Option (List Char)
  | [], l => some l
  | _ :: _, [] => none
  | p :: ps, c :: cs => if lowEq c p then afterLitCI ps cs else none

/-- Drop one `;` if present (legacy entity references omit it). -/
def eatSemi (l : List Char) : List Char :=
  match l with
  | ';' :: r => r
  | _ => l

/-- The value of a hexadecimal digit. -/
def hexVal (c : Char) : Option Nat :=
  if c.isDigit then some (c.toNat - 48)
  else if 'a' ≤ c && c ≤ 'f' then some (c.toNat - 87)
  else if 'A' ≤ c && c ≤ 'F' then some (c.toNat - 55)
  else none

/-- Read decimal digits (then an optional `;`); the caller guarantees the first
character is a digit. -/
def parseDec : List Char → Nat → Nat × List Char
  | [], acc => (acc, [])
  | c :: rest, acc =>
    if c.isDigit then parseDec rest (acc * 10 + (c.toNat - 48))
    else if c == ';' then (acc, rest)
    else (acc, c :: rest)

/-- Read hexadecimal digits (then an optional `;`); the caller guarantees the first
character is a hex digit. -/
def parseHex : List Char → Nat → Nat × List Char
  | [], acc => (acc, [])
  | c :: rest, acc =>
    match hexVal c with
    | some v => parseHex rest (acc * 16 + v)
    | none => if c == ';' then (acc, rest) else (acc, c :: rest)

/-- A hexadecimal reference body right after `&#x`: at least one hex digit. -/
def hexStart : List Char → Option (Char × List Char)
  | [] => none
  | d :: r3 =>
    if (hexVal d).isSome then
      some (Char.ofNat (parseHex (d :: r3) 0).1, (parseHex (d :: r3) 0).2)
    else none

/-- A numeric character reference right after `&#`: `NN;` or `xHH;`
(`;` optional). -/
def numericEnt (l : List Char) : Option (Char × List Char) :=
  match l with
  | [] => none
  | c :: rest2 =>
    if c == 'x' || c == 'X' then hexStart rest2
    else if c.isDigit then
      some (Char.ofNat (parseDec (c :: rest2) 0).1, (parseDec (c :: rest2) 0).2)
    else none

/-- Decode one character-entity reference starting right after a `&`: the decoded
character and the remainder, or `none` when no reference starts here. -/
def decodeEnt (l : List Char) : Option (Char × List Char) :=
  match l with
  | [] => none
  | c :: rest =>
    if lowEq c 'l' then
      (match afterLitCI ['t'] rest with
       | some r => some ('<', eatSemi r)
       | none => none)
    else if lowEq c 'g' then
      (match afterLitCI ['t'] rest with
       | some r => some ('>', eatSemi r)
       | none => none)
    else if lowEq c 'a' then
      (match afterLitCI ['m', 'p'] rest with
       | some r => some ('&', eatSemi r)
       | none =>
         match afterLitCI ['p', 'o', 's', ';'] rest with
         | some r => some (singleQuote, r)
         | none => none)
    else if lowEq c 'q' then
      (match afterLitCI ['u', 'o', 't'] rest with
       | some r => some ('"', eatSemi r)
       | none => none)
    else if c == '#' then numericEnt rest
    else none

/-- Entity-decode one text segment (`he.decode` on one text node's raw text). -/
def decodeEntities : Nat → List Char → List Char
  | 0, l => l
  | _ + 1, [] => []
  | fuel + 1, c :: rest =>
    if c == '&' then
      match decodeEnt rest with
      | some p => p.1 :: decodeEntities fuel p.2
      | none => '&' :: decodeEntities fuel rest
    else c :: decodeEntities fuel rest

/-- Decode a whole segment. -/
def decodeSeg (seg : List Char) : List Char :=
  decodeEntities seg.length seg

/-- Decode every segment and concatenate — the `textContent` of the parsed markup. -/
def joinSegs : List (List Char) → List Char
  | [] => []
  | s :: ss => decodeSeg s ++ joinSegs ss

/-- `stripHtml(html)` from `utils.ts`: the text content of the parsed markup. -/
def stripHtml (s : String) : String :=
  ⟨joinSegs (stripSegs s.data.length s.data)⟩

/-- Output format for the items API: `raw` (HTML stripped) or `html` (preserved). -/
inductive ApiFormat where
  | raw
  | html
  deriving DecidableEq, Repr

/-- An item as returned by `formatItems`: date fields coerced (`date` defaulted to
"now", `published` left absent when absent), content fields possibly stripped. -/
structure FormattedItem where
  id : Option String := none
  guid : Option String := none
  title : Option String := none
  description : Option String := none
  content : Option String := none
  link : Option String := none
  date : Nat
  published : Option Nat := none
  deriving DecidableEq, Repr

/-- The synthetic placeholder returned for a record that fails to parse
(`formatItems`): `title: "Error parsing item"`, `description: "Could not parse this
item"`, `date: new Date()`, `link: ""`. -/
def placeholderItem (now : Nat) : FormattedItem :=
  { title := some "Error parsing item", description := some "Could not parse this item",
    date := now, link := some "" }

/-- The `raw` branch of `formatItems` on one parsed record: spread the record, coerce
the dates, and strip HTML from `title`/`description`/`content` (absent fields are
treated as `""`, matching `parsedItem.title || ""`). -/
def fmtRaw (r : ItemRec) (now : Nat) : FormattedItem :=
  { id := r.id, guid := r.guid,
    title := some (stripHtml (r.title.getD "")),
    description := some (stripHtml (r.description.getD "")),
    content := some (stripHtml (r.content.getD "")),
    link := r.link,
    date := r.date.getD now,
    published := r.published }

/-- The `html` branch of `formatItems` on one parsed record: spread the record and
coerce only the dates. -/
def fmtHtml (r : ItemRec) (now : Nat) : FormattedItem :=
  { id := r.id, guid := r.guid, title := r.title, description := r.description,
    content := r.content, link := r.link, date := r.date.getD now,
    published := r.published }

/-- `formatItems(items, format)` from `formatters.ts`: map over the stored records;
a record that fails `JSON.parse` becomes the synthetic placeholder instead of
aborting the batch. -/
def formatItems (items : List StoredRecord) (format : ApiFormat) (now : Nat) :
    List FormattedItem :=
  match format with
  | .raw =>
    items.map fun r =>
      match r with
      | .ok it => fmtRaw it now
      | .malformed _ => placeholderItem now
  | .html =>
    items.map fun r =>
      match r with
      | .ok it => fmtHtml it now
      | .malformed _ => placeholderItem now

/-- The four feed output formats. -/
inductive FeedFormat where
  | rss
  | atom
  | json
  | raw
  deriving DecidableEq, Repr

/-- Render an optional string field. -/
def renderOptStr (o : Option String) : String :=
  match o with
  | some s => "\"" ++ s ++ "\""
  | none => "null"

/-- Render an optional timestamp field. -/
def renderOptNat (o : Option Nat) : String :=
  match o with
  | some n => toString n
  | none => "null"

/-- Render one formatted item, field by field. -/
def renderItem (it : FormattedItem) : String :=
  "item(id=" ++ renderOptStr it.id ++ ",guid=" ++ renderOptStr it.guid ++
    ",title=" ++ renderOptStr it.title ++ ",description=" ++
    renderOptStr it.description ++ ",content=" ++ renderOptStr it.content ++
    ",link=" ++ renderOptStr it.link ++ ",date=" ++ toString it.date ++
    ",published=" ++ renderOptNat it.published ++ ")"

/-- Render a list of formatted items. -/
def renderItems (l : List FormattedItem) : String :=
  match l with
  | [] => ""
  | it :: rest => renderItem it ++ ";" ++ renderItems rest

/-- The `raw` branch of `generateFeed`: a JSON-Feed-shaped document built from
`formatItems(items, raw)` with the synthetic `feed_url`. -/
def renderRawFeed (cfg : FeedConfig) (items : List FormattedItem) : String :=
  "jsonfeed(version=https://jsonfeed.org/version/1.1,feed_url=" ++ cfg.siteUrl ++
    "/raw.json,items=[" ++ renderItems items ++ "])"

/-- The placeholder the non-raw branch of `generateFeed` adds for an unparseable
record (note its description differs from the `formatItems` placeholder:
"Could not parse this feed item"). -/
def feedPlaceholder (now : Nat) : FormattedItem :=
  { title := some "Error parsing item",
    description := some "Could not parse this feed item",
    date := now, link := some "" }

/-- The items the non-raw branch of `generateFeed` adds to the `Feed` document:
markup preserved, dates coerced, unparseable records replaced by a placeholder. -/
def docItems (items : List StoredRecord) (now : Nat) : List FormattedItem :=
  items.map fun r =>
    match r with
    | .ok it => fmtHtml it now
    | .malformed _ => feedPlaceholder now

/-- The `Feed` document built by `generateFeed` for the standard formats; `updated`
is `new Date()` — the invocation clock. -/
structure FeedDoc where
  id : String
  title : String
  description : String
  link : String
  updated : Nat
  items : List FormattedItem
  deriving DecidableEq, Repr

/-- The document `generateFeed` hands to the serializer. -/
def mkDoc (cfg : FeedConfig) (items : List StoredRecord) (now : Nat) : FeedDoc :=
  ⟨cfg.id, cfg.title, cfg.description, cfg.siteUrl, now, docItems items now⟩

/-- Modelled collaborator (`feed` package): `rss2()`, which serializes the document
including `<lastBuildDate>` taken from `updated`. -/
def rss2Render (doc : FeedDoc) : String :=
  "rss2(title=" ++ doc.title ++ ",description=" ++ doc.description ++ ",link=" ++
    doc.link ++ ",lastBuildDate=" ++ toString doc.updated ++ ",items=[" ++
    renderItems doc.items ++ "])"

/-- Modelled collaborator (`feed` package): `atom1()`, which serializes the document
including `<updated>`. -/
def atom1Render (doc : FeedDoc) : String :=
  "atom1(id=" ++ doc.id ++ ",title=" ++ doc.title ++ ",link=" ++ doc.link ++
    ",updated=" ++ toString doc.updated ++ ",items=[" ++ renderItems doc.items ++ "])"

/-- Modelled collaborator (`feed` package): `json1()`, which serializes the document
and its items (item dates included). -/
def json1Render (doc : FeedDoc) : String :=
  "json1(title=" ++ doc.title ++ ",home_page_url=" ++ doc.link ++ ",items=[" ++
    renderItems doc.items ++ "])"

/-- `generateFeed(items, feedConfig, format)` from `formatters.ts`: the serialized
text and its MIME content type.  `now` is the invocation clock (`new Date()`). -/
def generateFeed (items : List StoredRecord) (cfg : FeedConfig) (format : FeedFormat)
    (now : Nat) : String × String :=
  match format with
  | .raw =>
    (renderRawFeed cfg (formatItems items .raw now), "application/json; charset=utf-8")
  | .rss => (rss2Render (mkDoc cfg items now), "application/rss+xml; charset=utf-8")
  | .atom => (atom1Render (mkDoc cfg items now), "application/atom+xml; charset=utf-8")
  | .json => (json1Render (mkDoc cfg items now), "application/json; charset=utf-8")

/-! ## Claim C6: determinism of `generateFeed` -/

/-- The feed configuration of the C6 counterexample. -/
def c6Cfg : FeedConfig :=
  ⟨"f1", "T", "D", "https://x", 100⟩

/-- A stored record that parses but carries no date field. -/
def c6NoDate : StoredRecord :=
  .ok {}

set_option maxRecDepth 8192 in
/-- Counterexample to C6 as stated.  `generateFeed` is not a function of
`(items, config, format)` alone: it reads the clock.  For a stored record without a
date field, raw-format invocations at two different instants produce different bytes,
because the missing `date` is defaulted to `new Date()` and serialized into the
output. -/
theorem c6_generateFeed_reads_clock :
    generateFeed [c6NoDate] c6Cfg .raw 0 ≠ generateFeed [c6NoDate] c6Cfg .raw 1 := by
  decide

/-- Does a stored record parse and carry its own date? -/
def recHasDate : StoredRecord → Bool
  | .ok it => it.date.isSome
  | .malformed _ => false

/-- C6 amended.  `generateFeed` is deterministic only relative to the invocation
clock: for format `raw`, two invocations with the same stored records and
configuration produce byte-identical output at ANY two instants provided every record
parses and carries a date field — the clock enters the raw output only through
defaulted dates of dateless records and parse-failure placeholders (and enters the
rss/atom/json outputs additionally through the document's `updated` field). -/
theorem generateFeed_raw_deterministic (items : List StoredRecord) (cfg : FeedConfig)
    (now1 now2 : Nat) (h : items.all recHasDate = true) :
    generateFeed items cfg .raw now1 = generateFeed items cfg .raw now2 := by
  have hfmt : formatItems items .raw now1 = formatItems items .raw now2 := by
    unfold formatItems
    apply List.map_congr_left
    intro r hr
    rw [List.all_eq_true] at h
    have hd := h r hr
    cases r with
    | ok rec =>
      simp only [recHasDate] at hd
      obtain ⟨d, hdd⟩ := Option.isSome_iff_exists.mp hd
      simp [fmtRaw, hdd]
    | malformed s => simp [recHasDate] at hd
  simp [generateFeed, hfmt]

/-- Witness for C6 (amended): a concrete dated record renders identically at two
different instants. -/
theorem generateFeed_raw_deterministic_witness :
    generateFeed [.ok { title := some "t", date := some 5 }] c6Cfg .raw 0 =
      generateFeed [.ok { title := some "t", date := some 5 }] c6Cfg .raw 1 :=
  generateFeed_raw_deterministic _ c6Cfg 0 1 (by decide)

/-! ## Claim C7: `createFeed` -/

/-- Counterexample to C7 as stated.  `createFeed` with an absent/empty `config.id`
throws `StorageError` ("Feed ID is required when creating a feed"), not the
`FeedConfigurationError` class the claim names — which no code path ever throws. -/
theorem c7_empty_id_throws_storage_error :
    createFeed ⟨"", "T", "D", "S", 100⟩ ⟨[]⟩ 0 = Except.error RssError.storageError ∧
    RssError.storageError ≠ RssError.configurationError :=
  ⟨rfl, by decide⟩

/-- C7 amended.  `createFeed` requires `config.id` to be non-empty and fails with a
`StorageError` (not a `ConfigurationError`) when it is absent; when the id is present
it writes the record with a creation timestamp without checking prior existence,
overwriting any existing record: the stored value at the feed's key afterwards is the
new configuration with the new timestamp, whatever was there before. -/
theorem createFeed_upserts (cfg : FeedConfig) (reg : Registry) (now : Nat) :
    (cfg.id = "" → createFeed cfg reg now = Except.error RssError.storageError) ∧
    (cfg.id ≠ "" →
      createFeed cfg reg now =
        Except.ok (cfg.id, ⟨setKey reg.feeds cfg.id ⟨cfg, now⟩⟩) ∧
      getKey (setKey reg.feeds cfg.id ⟨cfg, now⟩) cfg.id = some ⟨cfg, now⟩) := by
  constructor
  · intro h
    simp [createFeed, h]
  · intro h
    exact ⟨by simp [createFeed, h], getKey_setKey reg.feeds cfg.id ⟨cfg, now⟩⟩

/-- A registry that already holds a record for feed `f1` (to exercise the overwrite). -/
def c7RegPre : Registry :=
  ⟨[("f1", ⟨⟨"f1", "T", "D", "S", 100⟩, 3⟩)]⟩

/-- Witness for C7 (amended): the empty-id failure, and a re-creation of the existing
feed `f1` that overwrites the old record with the new configuration and timestamp. -/
theorem createFeed_upserts_witness :
    createFeed ⟨"", "T", "D", "S", 100⟩ ⟨[]⟩ 0 = Except.error RssError.storageError ∧
    createFeed ⟨"f1", "T2", "D2", "S2", 50⟩ c7RegPre 7 =
      Except.ok ("f1", ⟨setKey c7RegPre.feeds "f1" ⟨⟨"f1", "T2", "D2", "S2", 50⟩, 7⟩⟩) ∧
    getKey (setKey c7RegPre.feeds "f1" ⟨⟨"f1", "T2", "D2", "S2", 50⟩, 7⟩) "f1" =
      some ⟨⟨"f1", "T2", "D2", "S2", 50⟩, 7⟩ :=
  ⟨(createFeed_upserts ⟨"", "T", "D", "S", 100⟩ ⟨[]⟩ 0).1 rfl,
    ((createFeed_upserts ⟨"f1", "T2", "D2", "S2", 50⟩ c7RegPre 7).2 (by decide)).1,
    ((createFeed_upserts ⟨"f1", "T2", "D2", "S2", 50⟩ c7RegPre 7).2 (by decide)).2⟩

/-! ## HTML sanitization (`sanitize` in `utils.ts`)

`sanitize` delegates to the `sanitize-html` collaborator with an explicit options
object (allowed tags, allowed attributes per tag plus global `class`/`id`, schemes
`http`/`https`/`mailto` applied to `href`/`src`, protocol-relative URLs allowed,
self-closing `img`/`br`/`hr`).  The collaborator is modelled as: tokenize the input
into text and tags; drop disallowed tags (dropping the whole content of the non-text
tags `script`/`style`/`textarea`/`option`); keep allowed tags with their allowed
attributes, dropping `href`/`src` attributes whose URL scheme is not allowed; re-emit
with text and attribute values entity-escaped.  Attribute syntax is modelled as
`name`, `name=value`, `name="value"` or single-quoted, without spaces around `=`. -/

/-- One token of the markup tokenizer. -/
inductive Tok where
  | text (c : Char)
  | tagOpen (name : List Char) (attrs : List (List Char × List Char))
  | tagClose (name : List Char)
  deriving DecidableEq, Repr

/-- Longest alphanumeric run, lowercased (tag names are case-insensitive in HTML),
plus the remainder. -/
def takeName : List Char → (List Char × List Char)
  | [] => ([], [])
  | c :: rest =>
    if c.isAlphanum then
      let p := takeName rest
      (c.toLower :: p.1, p.2)
    else ([], c :: rest)

/-- Attribute name: up to whitespace, `=`, `>` or `/`, lowercased. -/
def takeAttrName : List Char → (List Char × List Char)
  | [] => ([], [])
  | c :: rest =>
    if isWs c || c == '=' || c == '>' || c == '/' then ([], c :: rest)
    else
      let p := takeAttrName rest
      (c.toLower :: p.1, p.2)

/-- Unquoted attribute value: up to whitespace or `>`. -/
def takeUnquoted : List Char → (List Char × List Char)
  | [] => ([], [])
  | c :: rest =>
    if isWs c || c == '>' then ([], c :: rest)
    else
      let p := takeUnquoted rest
      (c :: p.1, p.2)

/-- Scan the attribute list of an open tag, through the closing `>`. -/
def takeAttrs : Nat → List Char → (List (List Char × List Char) × List Char)
  | 0, l => ([], l)
  | _ + 1, [] => ([], [])
  | fuel + 1, c :: rest =>
    if c == '>' then ([], rest)
    else if isWs c || c == '/' || c == '=' then takeAttrs fuel rest
    else
      let p1 := takeAttrName (c :: rest)
      match p1.2 with
      | '=' :: r1 =>
        (match r1 with
         | q :: r2 =>
           if q == '"' then
             let p2 := takeUntil '"' r2
             let res := takeAttrs fuel p2.2
             ((p1.1, p2.1) :: res.1, res.2)
           else if q == singleQuote then
             let p2 := takeUntil singleQuote r2
             let res := takeAttrs fuel p2.2
             ((p1.1, p2.1) :: res.1, res.2)
           else
             let p2 := takeUnquoted r1
             let res := takeAttrs fuel p2.2
             ((p1.1, p2.1) :: res.1, res.2)
         | [] => ([(p1.1, [])], []))
      | _ =>
        let res := takeAttrs fuel p1.2
        ((p1.1, []) :: res.1, res.2)

/-- Tokenize markup: text characters, open tags with attributes, close tags;
comments/doctype (`<!...>`) are dropped; a `<` that does not begin a tag is text. -/
def tokenizeHtml : Nat → List Char → List Tok
  | 0, _ => []
  | _ + 1, [] => []
  | fuel + 1, c :: rest =>
    if c == '<' then
      match rest with
      | '!' :: r1 =>
        (match afterGt r1 with
         | some r2 => tokenizeHtml fuel r2
         | none => [])
      | '/' :: r1 =>
        let p := takeName r1
        if p.1.isEmpty then
          (match afterGt r1 with
           | some r3 => tokenizeHtml fuel r3
           | none => [])
        else
          (match afterGt p.2 with
           | some r3 => Tok.tagClose p.1 :: tokenizeHtml fuel r3
           | none => tokenizeHtml fuel p.2)
      | d :: _ =>
        if d.isAlpha then
          let p := takeName rest
          let pa := takeAttrs p.2.length p.2
          Tok.tagOpen p.1 pa.1 :: tokenizeHtml fuel pa.2
        else Tok.text '<' :: tokenizeHtml fuel rest
      | [] => [Tok.text '<']
    else Tok.text c :: tokenizeHtml fuel rest

/-- The `allowedTags` option passed to the collaborator in `utils.ts`. -/
def allowedTagsL : List (List Char) :=
  ["h1".data, "h2".data, "h3".data, "h4".data, "h5".data, "h6".data,
   "blockquote".data, "p".data, "a".data, "ul".data, "ol".data, "nl".data,
   "li".data, "b".data, "i".data, "strong".data, "em".data, "strike".data,
   "code".data, "hr".data, "br".data, "div".data, "table".data, "thead".data,
   "caption".data, "tbody".data, "tr".data, "th".data, "td".data, "pre".data,
   "img".data]

/-- The collaborator's default non-text tags, whose entire content is dropped when
the tag is not allowed. -/
def nonTextTags : List (List Char) :=
  ["script".data, "style".data, "textarea".data, "option".data]

/-- The `selfClosing` option of `utils.ts`. -/
def selfClosingTags : List (List Char) :=
  ["img".data, "br".data, "hr".data]

/-- The global `"*": ["class", "id"]` entry of `allowedAttributes`. -/
def globalAttrNames : List (List Char) :=
  ["class".data, "id".data]

/-- `allowedAttributes` per tag (tag-specific entries plus the global ones). -/
def allowedAttrNamesFor (name : List Char) : List (List Char) :=
  if name = "a".data then
    ["href".data, "name".data, "target".data] ++ globalAttrNames
  else if name = "img".data then
    ["src".data, "alt".data, "title".data, "width".data, "height".data] ++
      globalAttrNames
  else globalAttrNames

/-- `allowedSchemesAppliedToAttributes: ["href", "src"]`. -/
def schemeAttrNames : List (List Char) :=
  ["href".data, "src".data]

/-- `allowedSchemes: ["http", "https", "mailto"]`. -/
def allowedSchemes : List (List Char) :=
  ["http".data, "https".data, "mailto".data]

/-- The collaborator strips control characters and spaces from a URL before scheme
detection (defeats `java\nscript:` obfuscation). -/
def stripCtl (v : List Char) : List Char :=
  v.filter (fun c => !(c.toNat ≤ 32))

/-- Characters allowed inside a URL scheme after the initial letter. -/
def isSchemeChar (c : Char) : Bool :=
  c.isAlphanum || c == '.' || c == '+' || c == '-'

/-- Scheme accumulation: up to a `:`, lowercased. -/
def schemeAux : List Char → List Char → Option (List Char)
  | [], _ => none
  | c :: rest, acc =>
    if c == ':' then some acc.reverse
    else if isSchemeChar c then schemeAux rest (c.toLower :: acc)
    else none

/-- The URL's scheme: a leading letter, scheme characters, then `:`; `none` for
relative and protocol-relative URLs. -/
def schemeOf (v : List Char) : Option (List Char) :=
  match v with
  | [] => none
  | c :: rest => if c.isAlpha then schemeAux rest [c.toLower] else none

/-- Is this `href`/`src` value acceptable: no scheme (relative / protocol-relative,
`allowProtocolRelative: true`), or an allowed scheme. -/
def hrefOk (v : List Char) : Bool :=
  match schemeOf (stripCtl v) with
  | some sch => allowedSchemes.contains sch
  | none => true

/-- Is one attribute kept on a tag: its name must be allowed for that tag, and a
scheme-checked attribute must carry an acceptable URL. -/
def attrOk (name : List Char) (a : List Char × List Char) : Bool :=
  (allowedAttrNamesFor name).contains a.1 &&
    (!(schemeAttrNames.contains a.1) || hrefOk a.2)

/-- Keep exactly the acceptable attributes. -/
def filterAttrs (name : List Char) (attrs : List (List Char × List Char)) :
    List (List Char × List Char) :=
  attrs.filter (attrOk name)

/-- One node of the sanitized output. -/
inductive ONode where
  | txt (c : Char)
  | tagOpen (name : List Char) (attrs : List (List Char × List Char))
  | tagClose (name : List Char)
  deriving DecidableEq, Repr

/-- Drop tokens through the matching close tag (content of a disallowed non-text
tag). -/
def dropUntilClose (name : List Char) : List Tok → List Tok
  | [] => []
  | Tok.tagClose n :: rest => if n = name then rest else dropUntilClose name rest
  | _ :: rest => dropUntilClose name rest

/-- The filtering pass: text kept, allowed tags kept with filtered attributes,
disallowed tags dropped (non-text ones with their content). -/
def sanitizeToks : Nat → List Tok → List ONode
  | 0, _ => []
  | _ + 1, [] => []
  | fuel + 1, t :: rest =>
    match t with
    | Tok.text c => ONode.txt c :: sanitizeToks fuel rest
    | Tok.tagOpen n attrs =>
      if allowedTagsL.contains n then
        ONode.tagOpen n (filterAttrs n attrs) :: sanitizeToks fuel rest
      else if nonTextTags.contains n then sanitizeToks fuel (dropUntilClose n rest)
      else sanitizeToks fuel rest
    | Tok.tagClose n =>
      if allowedTagsL.contains n then ONode.tagClose n :: sanitizeToks fuel rest
      else sanitizeToks fuel rest

/-- Entity-escape one text / attribute-value character. -/
def escapeChar (c : Char) : List Char :=
  if c == '<' then "&lt;".data
  else if c == '>' then "&gt;".data
  else if c == '&' then "&amp;".data
  else if c == '"' then "&quot;".data
  else [c]

/-- Escape a whole attribute value. -/
def renderAttrVal (v : List Char) : List Char :=
  match v with
  | [] => []
  | c :: rest => escapeChar c ++ renderAttrVal rest

/-- Serialize kept attributes: ` name="value"` each. -/
def renderAttrs (attrs : List (List Char × List Char)) : List Char :=
  match attrs with
  | [] => []
  | a :: rest =>
    ' ' :: (a.1 ++ ('=' :: '"' :: (renderAttrVal a.2 ++ ('"' :: renderAttrs rest))))

/-- Serialize one output node (self-closing tags as `<img ... />`). -/
def renderNode (n : ONode) : List Char :=
  match n with
  | .txt c => escapeChar c
  | .tagOpen name attrs =>
    '<' :: (name ++ (renderAttrs attrs ++
      (if selfClosingTags.contains name then " />".data else ['>'])))
  | .tagClose name => '<' :: '/' :: (name ++ ['>'])

/-- Serialize the node list. -/
def renderNodes : List ONode → List Char
  | [] => []
  | n :: rest => renderNode n ++ renderNodes rest

/-- The sanitized-output nodes of a string. -/
def sanitizeNodes (s : String) : List ONode :=
  sanitizeToks (tokenizeHtml s.data.length s.data).length
    (tokenizeHtml s.data.length s.data)

/-- `sanitize(content)` from `utils.ts`. -/
def sanitize (s : String) : String :=
  ⟨renderNodes (sanitizeNodes s)⟩

/-! ## Sanitizer guarantees: only allowed tags/attributes/schemes, no script tags -/

/-- Is one output node acceptable: tags must be allowed and carry only acceptable
attributes. -/
def nodeOk (n : ONode) : Bool :=
  match n with
  | .txt _ => true
  | .tagOpen name attrs => allowedTagsL.contains name && attrs.all (attrOk name)
  | .tagClose name => allowedTagsL.contains name

/-- Every output node is acceptable. -/
def nodesOk (l : List ONode) : Bool :=
  l.all nodeOk

/-- Does the input start (case-insensitively) with the pattern? -/
def startsWithCI : List Char → List Char → Bool
  | [], _ => true
  | _ :: _, [] => false
  | p :: ps, c :: cs => lowEq c p && startsWithCI ps cs

/-- No `<` immediately followed (case-insensitively) by `script` anywhere. -/
def scriptFree : List Char → Bool
  | [] => true
  | c :: rest => !(c == '<' && startsWithCI "script".data rest) && scriptFree rest

/-- The string contains no `<script` (case-insensitive) — no script tag. -/
def noScriptTagStr (s : String) : Bool :=
  scriptFree s.data

/-- The filtering pass produces only acceptable nodes. -/
theorem sanitizeToks_ok : ∀ (fuel : Nat) (toks : List Tok),
    nodesOk (sanitizeToks fuel toks) = true := by
  intro fuel
  induction fuel with
  | zero => intro toks; rfl
  | succ n ih =>
    intro toks
    match toks with
    | [] => rfl
    | t :: rest =>
      cases t with
      | text c => simpa [sanitizeToks, nodesOk, nodeOk] using ih rest
      | tagOpen nm attrs =>
        simp only [sanitizeToks]
        by_cases h1 : allowedTagsL.contains nm = true
        · rw [if_pos h1]
          have hall : (filterAttrs nm attrs).all (attrOk nm) = true := by
            rw [List.all_eq_true]
            intro a ha
            exact (List.mem_filter.mp ha).2
          rw [nodesOk, List.all_cons, Bool.and_eq_true]
          exact ⟨by rw [nodeOk, Bool.and_eq_true]; exact ⟨h1, hall⟩, ih rest⟩
        · rw [if_neg h1]
          by_cases h2 : nonTextTags.contains nm = true
          · rw [if_pos h2]; exact ih _
          · rw [if_neg h2]; exact ih _
      | tagClose nm =>
        simp only [sanitizeToks]
        by_cases h1 : allowedTagsL.contains nm = true
        · rw [if_pos h1]
          rw [nodesOk, List.all_cons, Bool.and_eq_true]
          exact ⟨h1, ih rest⟩
        · rw [if_neg h1]; exact ih _

/-- Entity escaping never emits `<`. -/
theorem hasLt_escapeChar (c : Char) : hasLt (escapeChar c) = false := by
  unfold escapeChar
  split_ifs with h1 h2 h3 h4
  · decide
  · decide
  · decide
  · decide
  · simp only [hasLt, Bool.or_false]
    simpa using h1

/-- Escaped attribute values never contain `<`. -/
theorem hasLt_renderAttrVal (v : List Char) : hasLt (renderAttrVal v) = false := by
  induction v with
  | nil => rfl
  | cons c rest ih => simp [renderAttrVal, hasLt_append, hasLt_escapeChar, ih]

/-- Allowed tag names contain no `<`. -/
theorem allowedTags_no_lt (n : List Char) (h : allowedTagsL.contains n = true) :
    hasLt n = false := by
  have hm : n ∈ allowedTagsL := by simpa using h
  fin_cases hm <;> decide

/-- Allowed attribute names contain no `<`. -/
theorem allowedAttrNames_no_lt (name an : List Char)
    (h : (allowedAttrNamesFor name).contains an = true) : hasLt an = false := by
  have hm : an ∈ allowedAttrNamesFor name := by simpa using h
  unfold allowedAttrNamesFor globalAttrNames at hm
  split_ifs at hm <;> (fin_cases hm <;> decide)

/-- Serialized kept attributes contain no `<`. -/
theorem hasLt_renderAttrs (name : List Char) (attrs : List (List Char × List Char))
    (h : attrs.all (attrOk name) = true) : hasLt (renderAttrs attrs) = false := by
  induction attrs with
  | nil => rfl
  | cons a rest ih =>
    rw [List.all_cons, Bool.and_eq_true] at h
    have hname : hasLt a.1 = false := by
      have := h.1
      unfold attrOk at this
      rw [Bool.and_eq_true] at this
      exact allowedAttrNames_no_lt name a.1 this.1
    simp [renderAttrs, hasLt, hasLt_append, hname, hasLt_renderAttrVal, ih h.2]

/-- The tail of a serialized open tag (after the name) contains no `<`. -/
theorem hasLt_openTagTail (name : List Char) (attrs : List (List Char × List Char))
    (h : attrs.all (attrOk name) = true) :
    hasLt (renderAttrs attrs ++
      (if selfClosingTags.contains name then " />".data else ['>'])) = false := by
  rw [hasLt_append, hasLt_renderAttrs name attrs h]
  split <;> decide

/-- Pre-pending `<`-free text preserves script-freedom. -/
theorem scriptFree_append_noLt (a b : List Char) (ha : hasLt a = false)
    (hb : scriptFree b = true) : scriptFree (a ++ b) = true := by
  induction a with
  | nil => simpa using hb
  | cons c rest ih =>
    rw [hasLt, Bool.or_eq_false_iff] at ha
    simp [scriptFree, ha.1, ih ha.2]

/-- No allowed tag name begins (case-insensitively) with `script`, whatever follows
it. -/
theorem startsWithCI_allowed (n : List Char) (h : allowedTagsL.contains n = true)
    (tail : List Char) : startsWithCI "script".data (n ++ tail) = false := by
  have hm : n ∈ allowedTagsL := by simpa using h
  fin_cases hm <;> rfl

/-- `script` never matches right after the `/` of a close tag. -/
theorem startsWithCI_script_slash (w : List Char) :
    startsWithCI "script".data ('/' :: w) = false :=
  rfl

/-- Serializing acceptable nodes yields script-free text. -/
theorem scriptFree_renderNodes (ns : List ONode) (h : nodesOk ns = true) :
    scriptFree (renderNodes ns) = true := by
  induction ns with
  | nil => rfl
  | cons n rest ih =>
    rw [nodesOk, List.all_cons, Bool.and_eq_true] at h
    obtain ⟨hn, hrest⟩ := h
    have ihr := ih hrest
    cases n with
    | txt c =>
      exact scriptFree_append_noLt _ _ (hasLt_escapeChar c) ihr
    | tagOpen name attrs =>
      rw [nodeOk, Bool.and_eq_true] at hn
      show scriptFree (('<' :: (name ++ (renderAttrs attrs ++ _))) ++ renderNodes rest)
        = true
      rw [List.cons_append, List.append_assoc]
      simp only [scriptFree, Bool.and_eq_true]
      refine ⟨?_, ?_⟩
      · rw [startsWithCI_allowed name hn.1]
        decide
      · refine scriptFree_append_noLt _ _ (allowedTags_no_lt name hn.1) ?_
        exact scriptFree_append_noLt _ _ (hasLt_openTagTail name attrs hn.2) ihr
    | tagClose name =>
      show scriptFree (('<' :: '/' :: (name ++ ['>'])) ++ renderNodes rest) = true
      rw [List.cons_append, List.cons_append, List.append_assoc]
      simp only [scriptFree, Bool.and_eq_true]
      refine ⟨?_, ?_, ?_⟩
      · rw [startsWithCI_script_slash]
        decide
      · rfl
      · refine scriptFree_append_noLt _ _ (allowedTags_no_lt name hn) ?_
        exact scriptFree_append_noLt _ _ (by decide) ihr

/-- `sanitize` output never contains a script tag. -/
theorem sanitize_no_script (s : String) : noScriptTagStr (sanitize s) = true :=
  scriptFree_renderNodes _ (sanitizeToks_ok _ _)

/-- `sanitize` output comes entirely from acceptable nodes: only allowed tags, only
allowed attribute names, and only allowed URL schemes on `href`/`src`. -/
theorem sanitizeNodes_allowed (s : String) : nodesOk (sanitizeNodes s) = true :=
  sanitizeToks_ok _ _

/-! ## Claim C10: `handleAddItem` sanitizes at ingestion (`routes.ts` lines 565-735) -/

/-- The JSON body of a `POST /api/feeds/:feedId/items` request, with the fields the
handler reads.  `none` models an absent JS property. -/
structure AddItemInput where
  id : Option String := none
  guid : Option String := none
  title : Option String := none
  description : Option String := none
  content : Option String := none
  link : Option String := none
  published : Option Nat := none
  publishedAt : Option Nat := none
  date : Option Nat := none
  deriving DecidableEq, Repr

/-- The 400 rejections of `handleAddItem`'s validation. -/
inductive AddItemReject where
  | missingContent
  | missingLink
  deriving DecidableEq, Repr

/-- JS truthiness of a string property: absent and `""` are falsy. -/
def jsTruthy (o : Option String) : Bool :=
  match o with
  | some s => !(s == "")
  | none => false

/-- JS `o || dflt` for a string property. -/
def jsStr (o : Option String) (dflt : String) : String :=
  match o with
  | some s => if s = "" then dflt else s
  | none => dflt

/-- JS `a || b` for two string properties. -/
def jsOrOpt (a b : Option String) : Option String :=
  match a with
  | some s => if s = "" then b else a
  | none => b

/-- The `completeItem` construction of `handleAddItem` (after the feed-existence
check): map `publishedAt` to `published`, reject when both `content` and
`description` are missing or when `link` is missing, then build the item — `id`
defaulted to a fresh uuid, `guid` to `link` or a fresh uuid, `title`/`description`/
`content` passed through `sanitize`, dates defaulted to the ingestion clock `now`.
(`freshId` stands for the `uuidv4()` calls; date properties model `none` = absent.) -/
def buildCompleteItem (input : AddItemInput) (freshId : String) (now : Nat) :
    Except AddItemReject ItemRec :=
  let published0 :=
    match input.published with
    | some p => some p
    | none => input.publishedAt
  if !(jsTruthy input.content) && !(jsTruthy input.description) then
    .error .missingContent
  else if !(jsTruthy input.link) then .error .missingLink
  else
    .ok
      { id := some (jsStr input.id freshId),
        guid := some (jsStr (jsOrOpt input.guid input.link) freshId),
        title := some (sanitize (jsStr input.title "Untitled")),
        description := some (sanitize (jsStr input.description "")),
        content := some (sanitize (jsStr (jsOrOpt input.content input.description) "")),
        link := input.link,
        date := some (input.date.getD now),
        published := some (published0.getD now) }

/-- C10.  Every item accepted by the add-item endpoint is stored with its title,
description and content already passed through the HTML sanitizer — at ingestion,
before `addItem` stores it — and consequently those stored fields never contain a
script tag, and their markup consists solely of allowlisted tags whose attributes are
allowlisted, with only acceptable (http/https/mailto, relative, or protocol-relative)
URLs on `href`/`src`. -/
theorem handleAddItem_sanitizes_at_ingestion (input : AddItemInput) (freshId : String)
    (now : Nat) (item : ItemRec)
    (h : buildCompleteItem input freshId now = Except.ok item) :
    item.title = some (sanitize (jsStr input.title "Untitled")) ∧
    item.description = some (sanitize (jsStr input.description "")) ∧
    item.content = some (sanitize (jsStr (jsOrOpt input.content input.description) "")) ∧
    noScriptTagStr (item.title.getD "") = true ∧
    noScriptTagStr (item.description.getD "") = true ∧
    noScriptTagStr (item.content.getD "") = true ∧
    nodesOk (sanitizeNodes (jsStr input.title "Untitled")) = true ∧
    nodesOk (sanitizeNodes (jsStr input.description "")) = true ∧
    nodesOk (sanitizeNodes (jsStr (jsOrOpt input.content input.description) "")) =
      true := by
  unfold buildCompleteItem at h
  by_cases h1 : (!(jsTruthy input.content) && !(jsTruthy input.description)) = true
  · rw [if_pos h1] at h
    exact absurd h (by simp)
  · rw [if_neg h1] at h
    by_cases h2 : (!(jsTruthy input.link)) = true
    · rw [if_pos h2] at h
      exact absurd h (by simp)
    · rw [if_neg h2] at h
      simp only [Except.ok.injEq] at h
      subst h
      refine ⟨rfl, rfl, rfl, ?_, ?_, ?_, sanitizeNodes_allowed _,
        sanitizeNodes_allowed _, sanitizeNodes_allowed _⟩
      · exact sanitize_no_script _
      · exact sanitize_no_script _
      · exact sanitize_no_script _

/-- The concrete request body of the C10 witness: a script injection in the title, a
`javascript:` URL in the description, plain markup in the content. -/
def c10Input : AddItemInput :=
  { title := some "<script>alert(1)</script><b>hi</b>",
    description := some "<a href=\"javascript:x()\">d</a>",
    content := some "<p>ok</p>",
    link := some "https://e/1" }

/-- The item `handleAddItem` builds from `c10Input` (with fresh uuid `"u1"` at
clock 0): script tag and content gone, `javascript:` href dropped, allowed markup
kept. -/
def c10Item : ItemRec :=
  { id := some "u1", guid := some "https://e/1", title := some "<b>hi</b>",
    description := some "<a>d</a>", content := some "<p>ok</p>",
    link := some "https://e/1", date := some 0, published := some 0 }

set_option maxRecDepth 16384 in
/-- Witness for C10: the concrete malicious request body is accepted, and the claim
theorem applies to it. -/
theorem handleAddItem_sanitizes_witness :
    buildCompleteItem c10Input "u1" 0 = Except.ok c10Item ∧
    c10Item.title = some (sanitize (jsStr c10Input.title "Untitled")) ∧
    noScriptTagStr (c10Item.title.getD "") = true ∧
    noScriptTagStr (c10Item.description.getD "") = true ∧
    nodesOk (sanitizeNodes (jsStr c10Input.description "")) = true :=
  ⟨rfl,
    (handleAddItem_sanitizes_at_ingestion c10Input "u1" 0 c10Item rfl).1,
    (handleAddItem_sanitizes_at_ingestion c10Input "u1" 0 c10Item rfl).2.2.2.1,
    (handleAddItem_sanitizes_at_ingestion c10Input "u1" 0 c10Item rfl).2.2.2.2.1,
    (handleAddItem_sanitizes_at_ingestion c10Input "u1" 0 c10Item rfl).2.2.2.2.2.2.2.1⟩
